import Mathlib

/-!
Verification of the skin-analysis pipeline of this repository.

The development shallowly embeds the two in-scope pieces of the app:

* `services/geminiService.ts` (the manual-validation variant): credential
  checking (`checkAndPromptApiKey`), credential-error recovery
  (`handleApiKeyError`), and the response pipeline of `analyzeSkinImage`
  (trim, markdown-fence stripping, JSON parsing, field-by-field structural
  validation).
* `pages/ScanPage.tsx`: the camera / capture lifecycle around the
  `useEffect` initialization, restricted to the stream-relevant state.

JavaScript strings are embedded as `List Char` (lifted to `String` at the
boundary); `JSON.parse` is embedded as an executable recursive-descent
parser over the same character lists; JS objects are association lists with
last-duplicate-wins insertion, matching `JSON.parse` object semantics.
Every thrown `Error` of the service is one constructor of `GeminiError`,
one per throw site, carrying exactly the data the thrown message
interpolates.
-/

namespace FaceHeal

/-! ## Characters and whitespace (JS `trim` and fence handling) -/

/-- Whitespace as used by the embedded `trim`: space, tab, newline, carriage
return (the characters relevant to the pipeline's inputs). -/
def wsChar (c : Char) : Bool := c = ' ' || c = '\t' || c = '\n' || c = '\r'

/-- Embedding of `String.prototype.trim`: drop whitespace from both ends. -/
def trimList (cs : List Char) : List Char :=
  ((cs.dropWhile wsChar).reverse.dropWhile wsChar).reverse

/-- Embedding of `String.prototype.includes pat` for nonempty `pat`:
`pat` occurs as a contiguous substring. -/
def hasSubstr (pat : List Char) : List Char → Bool
  | [] => pat.isEmpty
  | c :: rest => pat.isPrefixOf (c :: rest) || hasSubstr pat rest

/-- String-level wrapper for `hasSubstr`. -/
def strIncludes (s pat : String) : Bool := hasSubstr pat.data s.data

/-! ## JSON values

The result of `JSON.parse`: JavaScript primitives and containers. Numbers
are kept exact as `mantissa × 10^exponent` (the validation code never
inspects the numeric value, only its type, so no floating-point behaviour
is relevant; the value is zero exactly when the mantissa is). Objects are
association lists with unique keys, produced by last-duplicate-wins
insertion exactly as `JSON.parse` builds JS objects. -/

inductive JsonVal where
  | null
  | bool (b : Bool)
  | num (mantissa exponent : Int)
  | str (s : String)
  | arr (elems : List JsonVal)
  | obj (fields : List (String × JsonVal))

namespace JsonVal

/-- First-match association-list lookup (keys are unique by construction). -/
def objGet : List (String × JsonVal) → String → Option JsonVal
  | [], _ => none
  | (k', v) :: rest, k => if k' = k then some v else objGet rest k

/-- JS property write / `JSON.parse` duplicate handling: replace the value of
an existing key in place, else append. -/
def objSet : List (String × JsonVal) → String → JsonVal → List (String × JsonVal)
  | [], k, v => [(k, v)]
  | (k', v') :: rest, k, v =>
    if k' = k then (k', v) :: rest else (k', v') :: objSet rest k v

/-- Embedding of JS property access `x[k]`: `none` is `undefined`. Property
access on non-objects yields `undefined` for every key the code reads. -/
def get : JsonVal → String → Option JsonVal
  | .obj fields, k => objGet fields k
  | _, _ => none

/-- JS truthiness of a value: `null`, `false`, `0` and `""` are falsy. -/
def truthy : JsonVal → Bool
  | .null => false
  | .bool b => b
  | .num m _ => m ≠ 0
  | .str s => s ≠ ""
  | .arr _ => true
  | .obj _ => true

end JsonVal

/-- JS truthiness of a possibly-`undefined` value. -/
def optTruthy : Option JsonVal → Bool
  | none => false
  | some v => v.truthy

/-- Embedding of `typeof x === 'number'` (false for `undefined`). -/
def isNumVal : Option JsonVal → Bool
  | some (.num _ _) => true
  | _ => false

/-- Embedding of `typeof x === 'string'` (false for `undefined`). -/
def isStrVal : Option JsonVal → Bool
  | some (.str _) => true
  | _ => false

/-- Embedding of `typeof x === 'object' && x !== null`: JS arrays also have
`typeof` `'object'`. -/
def isObjectNonNull : Option JsonVal → Bool
  | some (.obj _) => true
  | some (.arr _) => true
  | _ => false

/-- Embedding of `[...strings].includes(x)`: `===` against string literals
succeeds only for a string value among the candidates. -/
def strEnumMember (v : Option JsonVal) (xs : List String) : Bool
  := match v with
  | some (.str s) => xs.contains s
  | _ => false

/-! ## The embedded `JSON.parse`

A total, executable recursive-descent parser for RFC 8259 JSON over
`List Char`, standing in for the platform's `JSON.parse`. It is only ever
compared against itself on equal cleaned texts (the validation claims), or
evaluated on concrete inputs (the witnesses), so only its determinism and
executability are load-bearing. Duplicate object keys follow JS semantics:
first occurrence keeps its position, the last value wins. -/

/-- Skip JSON insignificant whitespace. -/
def skipJsonWs (cs : List Char) : List Char := cs.dropWhile wsChar

/-- Numeric value of a run of decimal digits. -/
def digitsToNat (ds : List Char) : Nat :=
  ds.foldl (fun n c => n * 10 + (c.toNat - 48)) 0

/-- Value of a hexadecimal digit, if `c` is one. -/
def hexDigitVal (c : Char) : Option Nat :=
  if c.isDigit then some (c.toNat - 48)
  else if 'a' ≤ c && c ≤ 'f' then some (c.toNat - 87)
  else if 'A' ≤ c && c ≤ 'F' then some (c.toNat - 55)
  else none

/-- Parse the body of a JSON string after the opening quote, handling the
escape sequences of the grammar; returns the content and the remainder
after the closing quote. -/
def parseStrChars : List Char → Option (List Char × List Char)
  | [] => none
  | '"' :: rest => some ([], rest)
  | '\\' :: '"' :: rest => (parseStrChars rest).map (fun p => ('"' :: p.1, p.2))
  | '\\' :: '\\' :: rest => (parseStrChars rest).map (fun p => ('\\' :: p.1, p.2))
  | '\\' :: '/' :: rest => (parseStrChars rest).map (fun p => ('/' :: p.1, p.2))
  | '\\' :: 'b' :: rest => (parseStrChars rest).map (fun p => ('\x08' :: p.1, p.2))
  | '\\' :: 'f' :: rest => (parseStrChars rest).map (fun p => ('\x0c' :: p.1, p.2))
  | '\\' :: 'n' :: rest => (parseStrChars rest).map (fun p => ('\n' :: p.1, p.2))
  | '\\' :: 'r' :: rest => (parseStrChars rest).map (fun p => ('\r' :: p.1, p.2))
  | '\\' :: 't' :: rest => (parseStrChars rest).map (fun p => ('\t' :: p.1, p.2))
  | '\\' :: 'u' :: a :: b :: c :: d :: rest => do
    let ha ← hexDigitVal a
    let hb ← hexDigitVal b
    let hc ← hexDigitVal c
    let hd ← hexDigitVal d
    let p ← parseStrChars rest
    some (Char.ofNat (((ha * 16 + hb) * 16 + hc) * 16 + hd) :: p.1, p.2)
  | '\\' :: _ => none
  | c :: rest =>
    if c.toNat < 32 then none
    else (parseStrChars rest).map (fun p => (c :: p.1, p.2))

/-- Parse an optional fraction part (after the integer digits): either no
dot at all, or a dot followed by at least one digit. -/
def parseFracPart : List Char → Option (List Char × List Char)
  | '.' :: r =>
    let ds := r.takeWhile Char.isDigit
    if ds.isEmpty then none else some (ds, r.dropWhile Char.isDigit)
  | cs => some ([], cs)

/-- Parse an optional exponent part, returning the signed exponent. -/
def parseExpPart : List Char → Option (Int × List Char)
  | c :: r =>
    if c = 'e' || c = 'E' then
      let neg : Bool := r.head? = some '-'
      let r1 := if r.head? = some '-' || r.head? = some '+' then r.tail else r
      let ds := r1.takeWhile Char.isDigit
      if ds.isEmpty then none
      else
        let mag : Int := (digitsToNat ds : Int)
        some (if neg then -mag else mag, r1.dropWhile Char.isDigit)
    else some (0, c :: r)
  | [] => some (0, [])

/-- Parse a JSON number (optional minus, integer part without leading
zeros, optional fraction, optional exponent) into an exact
`mantissa × 10^exponent` pair. -/
def parseNumber (cs : List Char) : Option ((Int × Int) × List Char) :=
  let start : Bool × List Char :=
    if cs.head? = some '-' then (true, cs.tail) else (false, cs)
  let intDs := start.2.takeWhile Char.isDigit
  if intDs.isEmpty then none
  else if 1 < intDs.length && intDs.head? = some '0' then none
  else do
    let (fracDs, cs3) ← parseFracPart (start.2.dropWhile Char.isDigit)
    let (e, cs4) ← parseExpPart cs3
    let mant : Int := (digitsToNat (intDs ++ fracDs) : Int)
    some ((if start.1 then -mant else mant, e - (fracDs.length : Int)), cs4)

/-- Rebuild a JS object from the members in source order: first occurrence
of a key keeps its position, the last value for it wins. -/
def buildObj (raw : List (String × JsonVal)) : List (String × JsonVal) :=
  raw.foldl (fun acc kv => JsonVal.objGet acc kv.1 |>.elim (acc ++ [kv]) (fun _ => JsonVal.objSet acc kv.1 kv.2)) []

/-- Consume the literal keyword `w` at the head of the input, if present. -/
def litToken (w : String) (cs : List Char) : Option (List Char) :=
  if w.data.isPrefixOf cs then some (cs.drop w.data.length) else none

mutual

/-- Parse one JSON value; `fuel` bounds the recursion depth and is chosen
large enough for the whole input by `jsonParse`. -/
def parseVal : Nat → List Char → Option (JsonVal × List Char)
  | 0, _ => none
  | fuel + 1, cs =>
    let s := skipJsonWs cs
    match litToken "null" s with
    | some rest => some (.null, rest)
    | none =>
      match litToken "true" s with
      | some rest => some (.bool true, rest)
      | none =>
        match litToken "false" s with
        | some rest => some (.bool false, rest)
        | none =>
          match s with
          | '"' :: rest => (parseStrChars rest).map (fun p => (.str (String.mk p.1), p.2))
          | '[' :: rest =>
            (match skipJsonWs rest with
             | ']' :: rest2 => some (.arr [], rest2)
             | cs2 => (parseElems fuel cs2).map (fun p => (.arr p.1, p.2)))
          | '{' :: rest =>
            (match skipJsonWs rest with
             | '}' :: rest2 => some (.obj [], rest2)
             | cs2 => (parseFields fuel cs2).map (fun p => (.obj (buildObj p.1), p.2)))
          | cs' => (parseNumber cs').map (fun p => (.num p.1.1 p.1.2, p.2))

/-- Parse the comma-separated values of a nonempty array, including the
closing bracket. -/
def parseElems : Nat → List Char → Option (List JsonVal × List Char)
  | 0, _ => none
  | fuel + 1, cs => do
    let (v, rest) ← parseVal fuel cs
    match skipJsonWs rest with
    | ',' :: rest2 => (parseElems fuel rest2).map (fun p => (v :: p.1, p.2))
    | ']' :: rest2 => some ([v], rest2)
    | _ => none

/-- Parse the comma-separated members of a nonempty object, including the
closing brace, in source order. -/
def parseFields : Nat → List Char → Option (List (String × JsonVal) × List Char)
  | 0, _ => none
  | fuel + 1, cs =>
    match skipJsonWs cs with
    | '"' :: rest => do
      let (kcs, rest1) ← parseStrChars rest
      match skipJsonWs rest1 with
      | ':' :: rest2 => do
        let (v, rest3) ← parseVal fuel rest2
        (match skipJsonWs rest3 with
         | ',' :: rest4 =>
           (parseFields fuel rest4).map (fun p => ((String.mk kcs, v) :: p.1, p.2))
         | '}' :: rest4 => some ([(String.mk kcs, v)], rest4)
         | _ => none)
      | _ => none
    | _ => none

end

/-- Embedding of `JSON.parse`: parse one value and require only trailing
whitespace after it. -/
def jsonParse (cs : List Char) : Option JsonVal :=
  match parseVal (2 * cs.length + 2) cs with
  | some (v, rest) => if (skipJsonWs rest).isEmpty then some v else none
  | none => none

/-! ## Errors of `services/geminiService.ts`

One constructor per `throw new Error(...)` site of the service, carrying
exactly the data the thrown message interpolates. `message` reproduces the
source's message text. -/

inductive GeminiError where
  | apiKeyRequiredNoAistudio
  | apiKeySelectionFailed
  | apiKeyReselectionFailed
  | apiKeyInvalidOrUnselected
  | apiKeyNotDefined
  | emptyResponse
  | emptyAfterCleaning
  | malformedJson (raw : String)
  | invalidTopLevel
  | invalidIssueScore (key : String)
  | invalidSymmetryDescription
  | invalidIssueSeverity (key : String)
  | invalidRecommendation (key : String)
deriving Repr, DecidableEq

namespace GeminiError

/-- Message text of each throw site (for `malformedJson` the part after the
parser's own diagnostic, which is platform text). -/
def message : GeminiError → String
  | apiKeyRequiredNoAistudio => "API_KEY_REQUIRED_NO_AISTUDIO"
  | apiKeySelectionFailed => "API_KEY_SELECTION_FAILED"
  | apiKeyReselectionFailed => "API_KEY_RESELECTION_FAILED"
  | apiKeyInvalidOrUnselected => "API_KEY_INVALID_OR_UNSELECTED"
  | apiKeyNotDefined => "API_KEY is not defined. Please select an API key to proceed."
  | emptyResponse => "AI response was empty. Cannot parse JSON."
  | emptyAfterCleaning =>
    "AI response contained only markdown fences or was empty after cleaning. Cannot parse JSON."
  | malformedJson raw => "AI response is not valid JSON. Raw response: " ++ raw
  | invalidTopLevel =>
    "AI response is missing critical data or is malformed after parsing. " ++
    "Ensure all top-level properties (overallScore, skinType, fitzpatrickScale, " ++
    "issues, recommendations, explainability) are present and correctly typed."
  | invalidIssueScore key => "AI response issue \"" ++ key ++ "\" is missing score or is malformed."
  | invalidSymmetryDescription => "AI response symmetry issue is missing description or is malformed."
  | invalidIssueSeverity key => "AI response issue \"" ++ key ++ "\" is missing severity or is malformed."
  | invalidRecommendation key =>
    "AI response recommendation \"" ++ key ++ "\" is missing or malformed (expected array of strings)."

/-- The spec's `EmptyResponse` failure kind: empty text after trimming,
before or after fence-stripping. -/
def isEmptyResponseKind : GeminiError → Bool
  | emptyResponse => true
  | emptyAfterCleaning => true
  | _ => false

/-- The spec's `MalformedJSON` failure kind: the cleaned text failed
`JSON.parse`. -/
def isMalformedJsonKind : GeminiError → Bool
  | malformedJson _ => true
  | _ => false

/-- The spec's `InvalidIssue` failure kind: one of the throw sites of the
per-issue validation loop. -/
def isInvalidIssueKind : GeminiError → Bool
  | invalidIssueScore _ => true
  | invalidSymmetryDescription => true
  | invalidIssueSeverity _ => true
  | _ => false

/-- The issue key an `InvalidIssue`-kind error names in its message (the
symmetry message names `symmetry` in its text). -/
def issueKeyNamed : GeminiError → Option String
  | invalidIssueScore key => some key
  | invalidSymmetryDescription => some "symmetry"
  | invalidIssueSeverity key => some key
  | _ => none

end GeminiError

/-! ## Response cleaning (trim and markdown-fence stripping)

Embedding of the text handling of `analyzeSkinImage` before `JSON.parse`:

```
let jsonStr = response.text.trim();
if (!jsonStr) throw ...          // emptyResponse
if (jsonStr.startsWith('…json')) jsonStr = jsonStr.substring(7);
if (jsonStr.endsWith('…'))       jsonStr = jsonStr.substring(0, len - 3);
jsonStr = jsonStr.trim();
if (!jsonStr) throw ...          // emptyAfterCleaning
```

where `…` stands for the triple-backtick marker. -/

/-- Leading fence marker the code tests with `startsWith`: triple backtick
annotated `json`. -/
def fenceOpen : List Char := "```json".data

/-- Trailing fence marker the code tests with `endsWith`. -/
def fenceClose : List Char := "```".data

/-- Strip exactly one leading `fenceOpen` and one trailing `fenceClose` if
present, as the two `substring` calls do. -/
def stripFences (s : List Char) : List Char :=
  let s1 := if fenceOpen.isPrefixOf s then s.drop fenceOpen.length else s
  if fenceClose.isSuffixOf s1 then s1.take (s1.length - fenceClose.length) else s1

/-- Trim, reject empty, strip fences, trim again, reject empty: the cleaned
text handed to `JSON.parse`. -/
def cleanResponseText (text : List Char) : Except GeminiError (List Char) :=
  let s := trimList text
  if s.isEmpty then .error .emptyResponse
  else
    let s2 := trimList (stripFences s)
    if s2.isEmpty then .error .emptyAfterCleaning
    else .ok s2

/-! ## Structural validation of the parsed result -/

/-- The five allowed `skinType` values. -/
def skinTypeEnum : List String := ["oily", "dry", "combination", "normal", "unknown"]

/-- The seven allowed `fitzpatrickScale` values. -/
def fitzpatrickEnum : List String := ["I", "II", "III", "IV", "V", "VI", "unknown"]

/-- The combined top-level check of `analyzeSkinImage` (one `if` with one
throw site): truthy result, numeric `overallScore`, both enums, object-typed
non-null `issues` and `recommendations`, truthy `explainability`. -/
def topLevelValid (v : JsonVal) : Bool :=
  v.truthy &&
  isNumVal (v.get "overallScore") &&
  strEnumMember (v.get "skinType") skinTypeEnum &&
  strEnumMember (v.get "fitzpatrickScale") fitzpatrickEnum &&
  isObjectNonNull (v.get "issues") &&
  isObjectNonNull (v.get "recommendations") &&
  optTruthy (v.get "explainability")

/-- The ten required issue keys, in the order the loop visits them. -/
def requiredIssueKeys : List String :=
  ["acne", "wrinkles", "hyperpigmentation", "pores", "redness", "texture",
   "hydration", "oiliness", "darkCircles", "symmetry"]

/-- Property access on a possibly-`undefined` receiver (the code only reads
properties of values it has checked truthy, but the embedding is total). -/
def optGet (o : Option JsonVal) (k : String) : Option JsonVal :=
  o.bind (fun v => v.get k)

/-- One iteration of the issue-validation loop at key `k`: falsy or
score-less entry, then the symmetry `description` check, otherwise the
`severity` check. -/
def checkIssue (issues : Option JsonVal) (k : String) : Option GeminiError :=
  let issue := optGet issues k
  if !optTruthy issue || !isNumVal (optGet issue "score") then some (.invalidIssueScore k)
  else if k = "symmetry" then
    if !isStrVal (optGet issue "description") then some .invalidSymmetryDescription else none
  else if !isStrVal (optGet issue "severity") then some (.invalidIssueSeverity k) else none

/-- The issue loop: the first failing key's error, if any. -/
def checkIssues (issues : Option JsonVal) : Option GeminiError :=
  requiredIssueKeys.findSome? (checkIssue issues)

/-- The four required recommendation keys, in loop order. -/
def requiredRecommendationKeys : List String :=
  ["morningRoutine", "eveningRoutine", "weeklyTreatments", "lifestyleTips"]

/-- Embedding of `Array.isArray(x) && x.every(item => typeof item === 'string')`. -/
def isStringArray : Option JsonVal → Bool
  | some (.arr xs) => xs.all (fun x => match x with | .str _ => true | _ => false)
  | _ => false

/-- One iteration of the recommendation-validation loop at key `k`. -/
def checkRecommendation (recs : Option JsonVal) (k : String) : Option GeminiError :=
  if !isStringArray (optGet recs k) then some (.invalidRecommendation k) else none

/-- The recommendation loop: the first failing key's error, if any. -/
def checkRecommendations (recs : Option JsonVal) : Option GeminiError :=
  requiredRecommendationKeys.findSome? (checkRecommendation recs)

/-- All structural validation of `analyzeSkinImage` after `JSON.parse`, in
source order; `none` means the parsed value is returned unchanged. -/
def validationError (v : JsonVal) : Option GeminiError :=
  if !topLevelValid v then some .invalidTopLevel
  else
    match checkIssues (v.get "issues") with
    | some e => some e
    | none => checkRecommendations (v.get "recommendations")

/-! ## The analysis pipeline -/

/-- The response pipeline of `analyzeSkinImage` applied to the remote
call's `response.text`: clean, parse, validate, and return the parsed
value verbatim on success. The surrounding `catch` block passes every one
of these errors through `handleApiKeyError`, which re-raises an error
unchanged unless its message contains the `Requested entity was not
found.` signal; the fixed messages of the errors below do not contain it. -/
def processResponse (responseText : String) : Except GeminiError JsonVal :=
  match cleanResponseText responseText.data with
  | .error e => .error e
  | .ok cleaned =>
    match jsonParse cleaned with
    | none => .error (.malformedJson (String.mk cleaned))
    | some v =>
      match validationError v with
      | some e => .error e
      | none => .ok v

/-- Whether `analyzeSkinImage` reached the remote call: the credential
precondition `if (!isProcessEnvApiKeySet()) throw ...` fires before the
client or request is built. -/
inductive AnalyzeTrace where
  | noRequest (e : GeminiError)
  | requested (result : Except GeminiError JsonVal)

/-- Embedding of `analyzeSkinImage`: `envKeySet` is `isProcessEnvApiKeySet()`
(the `process.env.API_KEY` credential), `responseText` the text the remote
call would return. -/
def analyzeSkinImage (envKeySet : Bool) (responseText : String) : AnalyzeTrace :=
  if !envKeySet then .noRequest .apiKeyNotDefined
  else .requested (processResponse responseText)

/-! ## Credential checking and recovery -/

/-- The host environment of the credential functions: whether the
`window.aistudio` picker capability exists, whether its `openSelectKey`
call succeeds, and whether `process.env.API_KEY` is set. -/
structure AistudioEnv where
  aistudioAvailable : Bool
  openSelectKeySucceeds : Bool
  envKeySet : Bool
deriving Repr, DecidableEq

/-- Embedding of `checkAndPromptApiKey`: `hasKeySelected` is the value
`window.aistudio.hasSelectedApiKey()` resolves to, `flag` the module-level
`hasUserSelectedApiKeyAssumeSuccess`. Returns the updated flag and the
outcome. -/
def checkAndPromptApiKey (env : AistudioEnv) (hasKeySelected flag : Bool) :
    Bool × Except GeminiError Unit :=
  if !env.aistudioAvailable then
    if !env.envKeySet then (flag, .error .apiKeyRequiredNoAistudio)
    else (true, .ok ())
  else if !hasKeySelected || !flag then
    if env.openSelectKeySucceeds then (true, .ok ())
    else (flag, .error .apiKeySelectionFailed)
  else (flag, .ok ())

/-- The recovery signal `handleApiKeyError` greps the message for. -/
def notFoundSignal : String := "Requested entity was not found."

/-- Embedding of `error.message && error.message.includes(signal)`: a
missing (`none`) or empty message is falsy and never matches. -/
def messageMatchesSignal (msg : Option String) : Bool :=
  match msg with
  | none => false
  | some s => s ≠ "" && strIncludes s notFoundSignal

/-- What `handleApiKeyError` ends by throwing. -/
inductive HandleOutcome where
  | reraiseOriginal
  | raised (e : GeminiError)
deriving Repr, DecidableEq

/-- Embedding of `handleApiKeyError`: given the original error's message
and the flag, returns the updated flag and what is thrown. On a matching
message the flag is first reset to `false`, then set to `true` again only
if the picker re-selection succeeds; on a non-matching message the original
error is re-thrown and the flag is untouched. -/
def handleApiKeyError (env : AistudioEnv) (flag : Bool) (msg : Option String) :
    Bool × HandleOutcome :=
  if messageMatchesSignal msg then
    if env.aistudioAvailable then
      if env.openSelectKeySucceeds then (true, .raised .apiKeyInvalidOrUnselected)
      else (false, .raised .apiKeyReselectionFailed)
    else if !env.envKeySet then (false, .raised .apiKeyRequiredNoAistudio)
    else (false, .raised .apiKeyInvalidOrUnselected)
  else (flag, .reraiseOriginal)

/-! ## Updating an issue entry's `areas` field

Path update used to state that validation never inspects `areas`: replace
(or add) the `areas` field of the `issues` entry at key `k`, leaving the
value unchanged when the path does not lead through objects. -/

/-- Replace the `areas` field of `issues[k]` by `w` (identity when `v`,
its `issues` field, or the entry at `k` is not an object). -/
def setIssueArea (v : JsonVal) (k : String) (w : JsonVal) : JsonVal :=
  match v with
  | .obj fields =>
    match JsonVal.objGet fields "issues" with
    | some (.obj issueFields) =>
      match JsonVal.objGet issueFields k with
      | some (.obj entryFields) =>
        .obj (JsonVal.objSet fields "issues"
          (.obj (JsonVal.objSet issueFields k
            (.obj (JsonVal.objSet entryFields "areas" w)))))
      | _ => v
    | _ => v
  | _ => v

/-! ## The capture / initialization lifecycle of `pages/ScanPage.tsx`

Stream-relevant state of the component, embedded as a state machine. The
`useState` booleans below are the component's; `stream` is the tracked
`MediaStream` (streams are numbered in acquisition order); `acquiredCount`
counts successful `getUserMedia` calls; `stops` records one entry per
release (a `getTracks().forEach(track => track.stop())` run) naming the
released stream.

The JSX mounts the `<video>` element only while the camera section is
rendered with `cameraEnabled` true, i.e. under
`!isInitializing && !apiKeyRequired && !loading && !capturedImage &&
cameraEnabled`; every `if (videoRef.current)` in the source is embedded as
a test of that same condition on the state the guard runs against (no
re-render has happened between the state updates that precede the guard
and the guard itself, so the rendered state is the one at entry, updated
only by the steps the handler already took). -/

structure ScanState where
  isInitializing : Bool
  apiKeyRequired : Bool
  loading : Bool
  capturedImage : Bool
  cameraEnabled : Bool
  cameraUnavailable : Bool
  stream : Option Nat
  acquiredCount : Nat
  stops : List Nat
deriving Repr, DecidableEq

/-- State at first render: `isInitializing` starts `true`, everything else
false / empty. -/
def initialScanState : ScanState :=
  { isInitializing := true, apiKeyRequired := false, loading := false,
    capturedImage := false, cameraEnabled := false, cameraUnavailable := false,
    stream := none, acquiredCount := 0, stops := [] }

/-- Whether the `<video>` element is mounted, i.e. `videoRef.current` is
non-null: the camera section's render condition. -/
def videoMounted (s : ScanState) : Bool :=
  !s.isInitializing && !s.apiKeyRequired && !s.loading && !s.capturedImage && s.cameraEnabled

/-- The `init` effect body: credential check, then camera acquisition.
`apiKeyOk` is whether `checkAndPromptApiKey` resolves, `cameraOk` whether
`getUserMedia` resolves. On camera success the stream is stored and the
camera enabled only under `if (videoRef.current)`; otherwise the freshly
acquired stream is neither stored nor stopped. `setIsInitializing(false)`
runs in the `finally`. -/
def initEffect (apiKeyOk cameraOk : Bool) (s : ScanState) : ScanState :=
  if !apiKeyOk then
    { s with apiKeyRequired := true, isInitializing := false }
  else if cameraOk then
    let newId := s.acquiredCount
    let s1 := { s with acquiredCount := s.acquiredCount + 1 }
    if videoMounted s1 then
      { s1 with stream := some newId, cameraEnabled := true, isInitializing := false }
    else
      { s1 with isInitializing := false }
  else
    { s with cameraUnavailable := true, isInitializing := false }

/-- Embedding of `captureImage`: only does anything with the video and canvas refs
present; snapshots, then stops and clears the tracked stream. -/
def captureImage (s : ScanState) : ScanState :=
  if videoMounted s then
    let s1 := { s with capturedImage := true }
    match s.stream with
    | some id =>
      { s1 with stops := s1.stops ++ [id], stream := none, cameraEnabled := false }
    | none => s1
  else s

/-- Embedding of `handleFileChange` with a chosen file: store the upload as the captured
image and stop the tracked stream if one is active. -/
def handleFileChange (s : ScanState) : ScanState :=
  let s1 := { s with capturedImage := true }
  match s.stream with
  | some id =>
    { s1 with stops := s1.stops ++ [id], stream := none, cameraEnabled := false }
  | none => s1

/-- Embedding of `retakePhoto`: clear the captured image, set `loading`, then either
re-request a stream (when none is tracked) — storing it only under
`if (videoRef.current)` — or re-enable the existing one; `finally` clears
`loading`. -/
def retakePhoto (cameraOk : Bool) (s : ScanState) : ScanState :=
  let s0 := { s with capturedImage := false, loading := true }
  let s1 :=
    match s0.stream with
    | none =>
      if cameraOk then
        let newId := s0.acquiredCount
        let s2 := { s0 with acquiredCount := s0.acquiredCount + 1 }
        if videoMounted s2 then
          { s2 with stream := some newId, cameraEnabled := true, cameraUnavailable := false }
        else s2
      else { s0 with cameraUnavailable := true }
    | some _ =>
      { s0 with cameraEnabled := true, cameraUnavailable := false }
  { s1 with loading := false }

/-- The effect's cleanup at unmount: stop the tracked stream's tracks (the
closure's `stream` is the tracked one; the `[stream]` dependency never
changes in the runs modelled here, since `setStream` never fires, so the
cleanup runs exactly once, at teardown). -/
def unmountCleanup (s : ScanState) : ScanState :=
  match s.stream with
  | some id => { s with stops := s.stops ++ [id], stream := none }
  | none => s

/-- Streams acquired from the hardware that are neither tracked by the
component nor ever released: the leak the claim rules out. -/
def leakedStreams (s : ScanState) : List Nat :=
  (List.range s.acquiredCount).filter
    (fun i => s.stops.count i = 0 && s.stream ≠ some i)

/-! ## Helper lemmas -/

/-- When some element of `l` produces a value, `findSome?` answers with the
value of some producing element of `l`. -/
theorem exists_findSome_eq {α β : Type} (f : α → Option β) :
    ∀ l : List α, (∃ a ∈ l, (f a).isSome) →
      ∃ a, a ∈ l ∧ (f a).isSome ∧ l.findSome? f = f a := by
  intro l
  induction l with
  | nil => rintro ⟨a, ha, _⟩; cases ha
  | cons x xs ih =>
    rintro ⟨a, ha, hsome⟩
    cases hx : f x with
    | some b =>
      exact ⟨x, List.mem_cons_self x xs, by simp [hx], by simp [List.findSome?_cons, hx]⟩
    | none =>
      have hmem : a ∈ xs := by
        rcases List.mem_cons.mp ha with h | h
        · subst h; rw [hx] at hsome; cases hsome
        · exact h
      obtain ⟨a', h1, h2, h3⟩ := ih ⟨a, hmem, hsome⟩
      exact ⟨a', List.mem_cons_of_mem x h1, h2, by simp [List.findSome?_cons, hx, h3]⟩

/-- Pointwise-equal functions give equal `findSome?` answers. -/
theorem findSome_congr {α β : Type} (f g : α → Option β) :
    ∀ l : List α, (∀ a ∈ l, f a = g a) → l.findSome? f = l.findSome? g := by
  intro l
  induction l with
  | nil => intro; rfl
  | cons x xs ih =>
    intro h
    have hx := h x (List.mem_cons_self x xs)
    simp only [List.findSome?_cons, hx]
    cases g x with
    | some b => rfl
    | none => exact ih (fun a ha => h a (List.mem_cons_of_mem x ha))

/-- A list fixed by `trimList` is fixed by the leading `dropWhile`. -/
theorem dropWhile_eq_self_of_trimmed {d : List Char} (h : trimList d = d) :
    d.dropWhile wsChar = d := by
  have hsuf : d.dropWhile wsChar <:+ d := List.dropWhile_suffix wsChar
  refine hsuf.eq_of_length ?_
  have l1 : (d.dropWhile wsChar).length ≤ d.length := hsuf.length_le
  have l2 : (trimList d).length ≤ (d.dropWhile wsChar).length := by
    unfold trimList
    calc ((d.dropWhile wsChar).reverse.dropWhile wsChar).reverse.length
        = ((d.dropWhile wsChar).reverse.dropWhile wsChar).length := List.length_reverse _
      _ ≤ (d.dropWhile wsChar).reverse.length := (List.dropWhile_suffix wsChar).length_le
      _ = (d.dropWhile wsChar).length := List.length_reverse _
  rw [h] at l2
  exact Nat.le_antisymm l1 l2

/-- A list fixed by `trimList` is fixed by the trailing `dropWhile` too. -/
theorem dropWhile_reverse_eq_self_of_trimmed {d : List Char} (h : trimList d = d) :
    d.reverse.dropWhile wsChar = d.reverse := by
  have h1 : d.dropWhile wsChar = d := dropWhile_eq_self_of_trimmed h
  have h2 : (d.reverse.dropWhile wsChar).reverse = d := by
    calc (d.reverse.dropWhile wsChar).reverse
        = ((d.dropWhile wsChar).reverse.dropWhile wsChar).reverse := by rw [h1]
      _ = d := h
  calc d.reverse.dropWhile wsChar
      = (d.reverse.dropWhile wsChar).reverse.reverse := (List.reverse_reverse _).symm
    _ = d.reverse := by rw [h2]

/-- Trimming strips a single surrounding newline pair from a nonempty
already-trimmed list. -/
theorem trimList_newline_pad {d : List Char} (h : trimList d = d) (hne : d ≠ []) :
    trimList ('\n' :: (d ++ ['\n'])) = d := by
  have h1 : d.dropWhile wsChar = d := dropWhile_eq_self_of_trimmed h
  have h2 : d.reverse.dropWhile wsChar = d.reverse := dropWhile_reverse_eq_self_of_trimmed h
  have hde : d.isEmpty = false := by
    cases d with
    | nil => exact absurd rfl hne
    | cons c cs => rfl
  have hws : wsChar '\n' = true := rfl
  unfold trimList
  have step1 : List.dropWhile wsChar ('\n' :: (d ++ ['\n'])) = d ++ ['\n'] := by
    rw [List.dropWhile_cons, hws, if_pos rfl, List.dropWhile_append, h1, hde]
    simp
  have hrev : (['\n'] : List Char).reverse = ['\n'] := rfl
  rw [step1, List.reverse_append, hrev, List.singleton_append, List.dropWhile_cons, hws,
    if_pos rfl, h2, List.reverse_reverse]

/-- Looking up the key just set yields the new value. -/
theorem objGet_objSet_self (fs : List (String × JsonVal)) (k : String) (w : JsonVal) :
    JsonVal.objGet (JsonVal.objSet fs k w) k = some w := by
  induction fs with
  | nil => simp [JsonVal.objSet, JsonVal.objGet]
  | cons kv rest ih =>
    obtain ⟨k0, v0⟩ := kv
    by_cases hk : k0 = k
    · subst hk
      simp [JsonVal.objSet, JsonVal.objGet]
    · simp [JsonVal.objSet, JsonVal.objGet, hk, ih]

/-- Setting one key leaves every other key's lookup unchanged. -/
theorem objGet_objSet_ne (fs : List (String × JsonVal)) (k k' : String) (w : JsonVal)
    (h : k' ≠ k) :
    JsonVal.objGet (JsonVal.objSet fs k w) k' = JsonVal.objGet fs k' := by
  induction fs with
  | nil => simp [JsonVal.objSet, JsonVal.objGet, Ne.symm h]
  | cons kv rest ih =>
    obtain ⟨k0, v0⟩ := kv
    by_cases hk : k0 = k
    · subst hk
      have hne : ¬k0 = k' := fun hh => h hh.symm
      simp [JsonVal.objSet, JsonVal.objGet, hne]
    · by_cases hk' : k0 = k'
      · subst hk'
        simp [JsonVal.objSet, JsonVal.objGet, hk]
      · simp [JsonVal.objSet, JsonVal.objGet, hk, hk', ih]

/-! ## Concrete sample responses

The fully valid sample of the spec's test properties (overallScore 72,
skinType `oily`, fitzpatrickScale `III`, all ten issues, all four
recommendation string arrays), with parameters at the places the individual
claims vary. -/

/-- Build a sample response text with the given `skinType`, `oiliness`
entry, `explainability` JSON value and `acne.areas` JSON value. -/
def mkSampleText (skinType oiliness explain acneAreas : String) : String :=
  "\x7b\"overallScore\":72,\"skinType\":\"" ++ skinType ++ "\",\"fitzpatrickScale\":\"III\"," ++
  "\"issues\":\x7b\"acne\":\x7b\"score\":20,\"severity\":\"low\",\"areas\":" ++ acneAreas ++ "\x7d," ++
  "\"wrinkles\":\x7b\"score\":10,\"severity\":\"low\"\x7d," ++
  "\"hyperpigmentation\":\x7b\"score\":15,\"severity\":\"low\"\x7d," ++
  "\"pores\":\x7b\"score\":30,\"severity\":\"medium\"\x7d," ++
  "\"redness\":\x7b\"score\":5,\"severity\":\"low\"\x7d," ++
  "\"texture\":\x7b\"score\":25,\"severity\":\"medium\"\x7d," ++
  "\"hydration\":\x7b\"score\":40,\"severity\":\"medium\"\x7d," ++
  "\"oiliness\":" ++ oiliness ++ "," ++
  "\"darkCircles\":\x7b\"score\":18,\"severity\":\"low\"\x7d," ++
  "\"symmetry\":\x7b\"score\":80,\"description\":\"balanced\"\x7d\x7d," ++
  "\"recommendations\":\x7b\"morningRoutine\":[\"cleanser\"],\"eveningRoutine\":[\"retinol\"]," ++
  "\"weeklyTreatments\":[\"mask\"],\"lifestyleTips\":[\"sleep\"]\x7d," ++
  "\"explainability\":" ++ explain ++ "\x7d"

/-- A valid `oiliness` entry. -/
def oilinessEntryValid : String := "\x7b\"score\":55,\"severity\":\"high\"\x7d"

/-- The fully valid sample response. -/
def sampleText : String :=
  mkSampleText "oily" oilinessEntryValid "\"Overall healthy skin.\"" "[\"chin\"]"

/-- The sample with `skinType` `greasy` (not in the enum). -/
def sampleGreasyText : String :=
  mkSampleText "greasy" oilinessEntryValid "\"Overall healthy skin.\"" "[\"chin\"]"

/-- The sample with the `oiliness` entry missing its `severity`. -/
def sampleNoSeverityText : String :=
  mkSampleText "oily" "\x7b\"score\":55\x7d" "\"Overall healthy skin.\"" "[\"chin\"]"

/-- The sample with `explainability` the empty string. -/
def sampleEmptyExplainText : String :=
  mkSampleText "oily" oilinessEntryValid "\"\"" "[\"chin\"]"

/-- The sample with `acne.areas` a number instead of a string array. -/
def sampleAreasNumText : String :=
  mkSampleText "oily" oilinessEntryValid "\"Overall healthy skin.\"" "5"

/-- An object missing the required top-level fields. -/
def missingFieldText : String := "\x7b\"skinType\":\"oily\"\x7d"

/-- A non-symmetry issue entry with a numeric score and a severity. -/
def issueEntry (score : Int) (sev : String) : JsonVal :=
  .obj [("score", .num score 0), ("severity", .str sev)]

/-- The JS object `mkSampleText` with the same parameters parses to. -/
def mkSampleVal (skinType : String) (oilinessVal : JsonVal) (explain : String)
    (acneAreas : JsonVal) : JsonVal :=
  .obj [
    ("overallScore", .num 72 0),
    ("skinType", .str skinType),
    ("fitzpatrickScale", .str "III"),
    ("issues", .obj [
      ("acne", .obj [("score", .num 20 0), ("severity", .str "low"), ("areas", acneAreas)]),
      ("wrinkles", issueEntry 10 "low"),
      ("hyperpigmentation", issueEntry 15 "low"),
      ("pores", issueEntry 30 "medium"),
      ("redness", issueEntry 5 "low"),
      ("texture", issueEntry 25 "medium"),
      ("hydration", issueEntry 40 "medium"),
      ("oiliness", oilinessVal),
      ("darkCircles", issueEntry 18 "low"),
      ("symmetry", .obj [("score", .num 80 0), ("description", .str "balanced")])]),
    ("recommendations", .obj [
      ("morningRoutine", .arr [.str "cleanser"]),
      ("eveningRoutine", .arr [.str "retinol"]),
      ("weeklyTreatments", .arr [.str "mask"]),
      ("lifestyleTips", .arr [.str "sleep"])]),
    ("explainability", .str explain)]

/-- The JS object `sampleText` parses to. -/
def sampleVal : JsonVal :=
  mkSampleVal "oily" (issueEntry 55 "high") "Overall healthy skin." (.arr [.str "chin"])

/-- The JS object `sampleGreasyText` parses to. -/
def sampleGreasyVal : JsonVal :=
  mkSampleVal "greasy" (issueEntry 55 "high") "Overall healthy skin." (.arr [.str "chin"])

/-- The JS object `sampleNoSeverityText` parses to. -/
def sampleNoSeverityVal : JsonVal :=
  mkSampleVal "oily" (.obj [("score", .num 55 0)]) "Overall healthy skin." (.arr [.str "chin"])

/-- The JS object `sampleEmptyExplainText` parses to. -/
def sampleEmptyExplainVal : JsonVal :=
  mkSampleVal "oily" (issueEntry 55 "high") "" (.arr [.str "chin"])

/-! ## The claims -/

set_option maxRecDepth 40000

/-- C5, counterexample. With no environment credential, `analyzeSkinImage`
does fail before any request is built, but with its own credential-missing
error (`API_KEY is not defined. Please select an API key to proceed.`),
which is a different kind from `CredentialRequiredNoPicker`
(`API_KEY_REQUIRED_NO_AISTUDIO`, the kind `checkAndPromptApiKey` raises),
so the claim's stated kind is wrong. -/
theorem c5_missing_key_counterexample :
    analyzeSkinImage false "" = .noRequest .apiKeyNotDefined ∧
    GeminiError.apiKeyNotDefined ≠ GeminiError.apiKeyRequiredNoAistudio :=
  ⟨rfl, by decide⟩

/-- C5, amended. Calling `analyzeSkinImage` with no environment credential
fails with the credential-missing kind `API_KEY is not defined` before any
request is built, whatever the remote response would have been; the
`CredentialRequiredNoPicker` kind (`API_KEY_REQUIRED_NO_AISTUDIO`) is what
`checkAndPromptApiKey` raises in the same no-picker, no-environment-key
scenario, regardless of the selection flag. -/
theorem c5_missing_key_amended (text : String) (hasKey flag : Bool) :
    analyzeSkinImage false text = .noRequest .apiKeyNotDefined ∧
    checkAndPromptApiKey ⟨false, false, false⟩ hasKey flag =
      (flag, .error .apiKeyRequiredNoAistudio) :=
  ⟨rfl, rfl⟩

/-- C5, witness: the amended statement at a concrete response text and
flag values. -/
theorem c5_missing_key_amended_witness :
    analyzeSkinImage false "irrelevant" = .noRequest .apiKeyNotDefined ∧
    checkAndPromptApiKey ⟨false, false, false⟩ false false =
      (false, .error .apiKeyRequiredNoAistudio) :=
  c5_missing_key_amended "irrelevant" false false

/-- C6. When the original error's message does not contain the
`Requested entity was not found.` signal (including a missing or empty
message), `handleApiKeyError` re-raises exactly the original error and
leaves the credential-selection flag unchanged — so the flag is reset only
when the message matches the signal. -/
theorem c6_reraise_unchanged (env : AistudioEnv) (flag : Bool) (msg : Option String)
    (h : messageMatchesSignal msg = false) :
    handleApiKeyError env flag msg = (flag, .reraiseOriginal) := by
  unfold handleApiKeyError
  rw [h]
  simp

/-- C6, witness: an unrelated network error with the picker available and
the flag set is re-raised unchanged with the flag still set. -/
theorem c6_reraise_unchanged_witness :
    messageMatchesSignal (some "Network timeout") = false ∧
    handleApiKeyError ⟨true, true, true⟩ true (some "Network timeout") =
      (true, .reraiseOriginal) :=
  ⟨by decide, c6_reraise_unchanged ⟨true, true, true⟩ true (some "Network timeout") (by decide)⟩

/-- C7. Whenever the cleaned response text parses to a value that passes
every structural validation, `analyzeSkinImage` returns exactly that parsed
value: no field is normalized, rounded, defaulted, added, or removed. -/
theorem c7_verbatim (text : String) (d : List Char) (v : JsonVal)
    (h1 : cleanResponseText text.data = .ok d) (h2 : jsonParse d = some v)
    (h3 : validationError v = none) :
    analyzeSkinImage true text = .requested (.ok v) := by
  unfold analyzeSkinImage processResponse
  rw [h1]
  simp [h2, h3]

/-- C7, witness: the fully valid sample (overallScore 72, skinType `oily`,
fitzpatrickScale `III`, all ten issues, all four recommendation string
arrays) round-trips through validation unchanged. -/
theorem c7_verbatim_witness :
    cleanResponseText sampleText.data = .ok sampleText.data ∧
    jsonParse sampleText.data = some sampleVal ∧
    validationError sampleVal = none ∧
    analyzeSkinImage true sampleText = .requested (.ok sampleVal) :=
  ⟨rfl, rfl, rfl, c7_verbatim sampleText sampleText.data sampleVal rfl rfl rfl⟩

/-- C9. A parsed response whose `explainability` is the empty string — a
value of the declared string type — is rejected by the combined top-level
check, because that check tests `explainability` for truthiness rather
than for being a string. -/
theorem c9_empty_explainability (text : String) (d : List Char) (v : JsonVal)
    (h1 : cleanResponseText text.data = .ok d) (h2 : jsonParse d = some v)
    (h3 : v.get "explainability" = some (.str "")) :
    isStrVal (v.get "explainability") = true ∧
    analyzeSkinImage true text = .requested (.error .invalidTopLevel) := by
  constructor
  · rw [h3]
    rfl
  · have hfalse : topLevelValid v = false := by
      simp [topLevelValid, h3, optTruthy, JsonVal.truthy]
    unfold analyzeSkinImage processResponse validationError
    rw [h1]
    simp [h2, hfalse]

/-- C9, witness: the otherwise fully valid sample with `explainability`
`""` is rejected with the top-level error. -/
theorem c9_empty_explainability_witness :
    cleanResponseText sampleEmptyExplainText.data = .ok sampleEmptyExplainText.data ∧
    jsonParse sampleEmptyExplainText.data = some sampleEmptyExplainVal ∧
    sampleEmptyExplainVal.get "explainability" = some (.str "") ∧
    isStrVal (sampleEmptyExplainVal.get "explainability") = true ∧
    analyzeSkinImage true sampleEmptyExplainText = .requested (.error .invalidTopLevel) := by
  have h := c9_empty_explainability sampleEmptyExplainText sampleEmptyExplainText.data
    sampleEmptyExplainVal rfl rfl rfl
  exact ⟨rfl, rfl, rfl, h.1, h.2⟩

/-- C8. Evaluation of the capture lifecycle at the failing input: mounting
with a credential and a working camera acquires a stream that is never
stored (`videoRef.current` is still null, since the `<video>` element
renders only once `cameraEnabled` is already true) and never stopped —
`cameraEnabled` stays false, unmount releases nothing, and the stream
leaks; after an upload, retake acquires and leaks a second stream and
still does not reach the camera-ready state. This contradicts the claimed
exactly-once release and return to `CameraReady`. -/
theorem c8_stream_leak :
    (initEffect true true initialScanState).acquiredCount = 1 ∧
    (initEffect true true initialScanState).stream = none ∧
    (initEffect true true initialScanState).cameraEnabled = false ∧
    (unmountCleanup (initEffect true true initialScanState)).stops = [] ∧
    leakedStreams (unmountCleanup (initEffect true true initialScanState)) = [0] ∧
    (retakePhoto true (handleFileChange (initEffect true true initialScanState))).cameraEnabled
      = false ∧
    (retakePhoto true (handleFileChange (initEffect true true initialScanState))).stops = [] ∧
    leakedStreams (retakePhoto true (handleFileChange (initEffect true true initialScanState)))
      = [0, 1] := by
  refine ⟨rfl, rfl, rfl, rfl, ?_, rfl, rfl, ?_⟩ <;> rfl

/-- C2, counterexample. A missing top-level required field and a `skinType`
outside the enum (`greasy`, on an otherwise fully valid sample) raise the
very same error — the combined top-level `if` has a single throw site — so
`InvalidTopLevel` and `InvalidEnum` are not mutually distinct kinds the
caller could tell apart. -/
theorem c2_kinds_counterexample :
    analyzeSkinImage true missingFieldText = .requested (.error .invalidTopLevel) ∧
    analyzeSkinImage true sampleGreasyText = .requested (.error .invalidTopLevel) :=
  ⟨rfl, rfl⟩

/-- C2, amended. The enum checks behave as claimed — `greasy` fails the
`skinType` check while `oily` passes it, and a `fitzpatrickScale` outside
its seven values fails — and any top-level failure (missing or mistyped
field, or either enum violation) is raised before the per-issue checks;
but all of them share the one combined kind of the single top-level throw
site rather than distinct `InvalidTopLevel` / `InvalidEnum` kinds. -/
theorem c2_kinds_amended :
    (∀ (text : String) (d : List Char) (v : JsonVal),
      cleanResponseText text.data = .ok d → jsonParse d = some v →
      topLevelValid v = false →
      analyzeSkinImage true text = .requested (.error .invalidTopLevel)) ∧
    strEnumMember (some (.str "greasy")) skinTypeEnum = false ∧
    strEnumMember (some (.str "oily")) skinTypeEnum = true ∧
    strEnumMember (some (.str "VIII")) fitzpatrickEnum = false ∧
    strEnumMember (some (.str "III")) fitzpatrickEnum = true := by
  refine ⟨?_, by decide, by decide, by decide, by decide⟩
  intro text d v h1 h2 h3
  unfold analyzeSkinImage processResponse validationError
  rw [h1]
  simp [h2, h3]

/-- C2, witness: the amended statement's general part at the `greasy`
sample, whose `skinType` fails the enum check and which is rejected with
the shared top-level kind even though all ten issues are valid. -/
theorem c2_kinds_amended_witness :
    cleanResponseText sampleGreasyText.data = .ok sampleGreasyText.data ∧
    jsonParse sampleGreasyText.data = some sampleGreasyVal ∧
    topLevelValid sampleGreasyVal = false ∧
    analyzeSkinImage true sampleGreasyText = .requested (.error .invalidTopLevel) :=
  ⟨rfl, rfl, rfl,
    c2_kinds_amended.1 sampleGreasyText sampleGreasyText.data sampleGreasyVal rfl rfl rfl⟩

/-- C4. A response whose text is empty after trimming — either before
fence-stripping (only whitespace) or after it (only fence markers as the
code strips them) — fails with an `EmptyResponse`-kind error, not with the
JSON-parse failure kind. -/
theorem c4_empty_kind (text : String)
    (h : (trimList text.data).isEmpty = true ∨
         ((trimList text.data).isEmpty = false ∧
          (trimList (stripFences (trimList text.data))).isEmpty = true)) :
    ∃ e, analyzeSkinImage true text = .requested (.error e) ∧
      e.isEmptyResponseKind = true ∧ e.isMalformedJsonKind = false := by
  rcases h with h | ⟨h1, h2⟩
  · refine ⟨.emptyResponse, ?_, rfl, rfl⟩
    unfold analyzeSkinImage processResponse cleanResponseText
    simp [h]
  · refine ⟨.emptyAfterCleaning, ?_, rfl, rfl⟩
    unfold analyzeSkinImage processResponse cleanResponseText
    simp [h1, h2]

/-- C4, witness: a response that is only fence markers (`json`-annotated
opening fence, closing fence) is empty after stripping and trimming and
fails with the empty-response kind. -/
theorem c4_empty_kind_witness :
    ((trimList ("```json\n```" : String).data).isEmpty = false ∧
     (trimList (stripFences (trimList ("```json\n```" : String).data))).isEmpty = true) ∧
    ∃ e, analyzeSkinImage true "```json\n```" = .requested (.error e) ∧
      e.isEmptyResponseKind = true ∧ e.isMalformedJsonKind = false :=
  ⟨⟨by decide, by decide⟩, c4_empty_kind "```json\n```" (Or.inr ⟨by decide, by decide⟩)⟩

/-- The issue loop at a key produces nothing, the score error at that key,
the symmetry description error (at `symmetry` only), or the severity error
at that key. -/
theorem checkIssue_cases (issues : Option JsonVal) (k : String) :
    checkIssue issues k = none ∨
    checkIssue issues k = some (.invalidIssueScore k) ∨
    (k = "symmetry" ∧ checkIssue issues k = some .invalidSymmetryDescription) ∨
    checkIssue issues k = some (.invalidIssueSeverity k) := by
  simp only [checkIssue]
  split_ifs with hA hB hC hD
  · exact Or.inr (Or.inl rfl)
  · exact Or.inr (Or.inr (Or.inl ⟨hB, rfl⟩))
  · exact Or.inl rfl
  · exact Or.inr (Or.inr (Or.inr rfl))
  · exact Or.inl rfl

/-- Every error the issue loop produces is of `InvalidIssue` kind and
names the key it was produced at. -/
theorem checkIssue_kind (issues : Option JsonVal) (k : String) (e : GeminiError)
    (h : checkIssue issues k = some e) :
    e.isInvalidIssueKind = true ∧ e.issueKeyNamed = some k := by
  rcases checkIssue_cases issues k with hc | hc | ⟨hsym, hc⟩ | hc
  · rw [hc] at h
    cases h
  · rw [hc] at h
    injection h with he
    subst he
    exact ⟨rfl, rfl⟩
  · rw [hc] at h
    injection h with he
    subst he
    subst hsym
    exact ⟨rfl, rfl⟩
  · rw [hc] at h
    injection h with he
    subst he
    exact ⟨rfl, rfl⟩

/-- C3. For a parsed response that passes the top-level check, a defective
entry at any of the ten issue keys (missing or falsy entry, non-numeric
`score`, non-string `description` for symmetry, non-string `severity` for
the rest) makes `analyzeSkinImage` fail with an `InvalidIssue`-kind error
naming a defective key — never return a partial result. -/
theorem c3_invalid_issue_names_key (text : String) (d : List Char) (v : JsonVal) (k : String)
    (h1 : cleanResponseText text.data = .ok d) (h2 : jsonParse d = some v)
    (h3 : topLevelValid v = true) (hk : k ∈ requiredIssueKeys)
    (hdef : (checkIssue (v.get "issues") k).isSome = true) :
    ∃ k0 e, k0 ∈ requiredIssueKeys ∧ checkIssue (v.get "issues") k0 = some e ∧
      e.isInvalidIssueKind = true ∧ e.issueKeyNamed = some k0 ∧
      analyzeSkinImage true text = .requested (.error e) := by
  obtain ⟨k0, hmem, hsome, heq⟩ :=
    exists_findSome_eq (checkIssue (v.get "issues")) requiredIssueKeys ⟨k, hk, hdef⟩
  obtain ⟨e, he⟩ := Option.isSome_iff_exists.mp hsome
  obtain ⟨hkind, hname⟩ := checkIssue_kind (v.get "issues") k0 e he
  refine ⟨k0, e, hmem, he, hkind, hname, ?_⟩
  unfold analyzeSkinImage processResponse validationError checkIssues
  rw [h1]
  simp [h2, h3, heq, he]

/-- C3, witness: the sample with the `oiliness` entry lacking `severity`
fails with the invalid-issue kind naming `oiliness`. -/
theorem c3_invalid_issue_names_key_witness :
    (cleanResponseText sampleNoSeverityText.data = .ok sampleNoSeverityText.data ∧
     jsonParse sampleNoSeverityText.data = some sampleNoSeverityVal ∧
     topLevelValid sampleNoSeverityVal = true ∧
     "oiliness" ∈ requiredIssueKeys ∧
     (checkIssue (sampleNoSeverityVal.get "issues") "oiliness").isSome = true) ∧
    ∃ k0 e, k0 ∈ requiredIssueKeys ∧
      checkIssue (sampleNoSeverityVal.get "issues") k0 = some e ∧
      e.isInvalidIssueKind = true ∧ e.issueKeyNamed = some k0 ∧
      analyzeSkinImage true sampleNoSeverityText = .requested (.error e) :=
  ⟨⟨rfl, rfl, rfl, by decide, rfl⟩,
   c3_invalid_issue_names_key sampleNoSeverityText sampleNoSeverityText.data
     sampleNoSeverityVal "oiliness" rfl rfl rfl (by decide) rfl⟩

/-- The issue check at a key depends on the issues value only through the
entry at that key. -/
theorem checkIssue_eq_of_entry_eq (issues issues' : Option JsonVal) (k0 : String)
    (h : optGet issues' k0 = optGet issues k0) :
    checkIssue issues' k0 = checkIssue issues k0 := by
  unfold checkIssue
  rw [h]

/-- The issue check at a key depends on the entry only through its
truthiness and its `score`, `description` and `severity` fields. -/
theorem checkIssue_congr (issues issues' : Option JsonVal) (k0 : String)
    (ht : optTruthy (optGet issues' k0) = optTruthy (optGet issues k0))
    (hs : optGet (optGet issues' k0) "score" = optGet (optGet issues k0) "score")
    (hd : optGet (optGet issues' k0) "description" = optGet (optGet issues k0) "description")
    (hv : optGet (optGet issues' k0) "severity" = optGet (optGet issues k0) "severity") :
    checkIssue issues' k0 = checkIssue issues k0 := by
  simp only [checkIssue]
  rw [ht, hs, hd, hv]

/-- The validation outcome depends on the parsed value only through the
fields the checks read. -/
theorem validationError_congr (v v' : JsonVal)
    (ht : v'.truthy = v.truthy)
    (hov : v'.get "overallScore" = v.get "overallScore")
    (hsk : v'.get "skinType" = v.get "skinType")
    (hfz : v'.get "fitzpatrickScale" = v.get "fitzpatrickScale")
    (hrec : v'.get "recommendations" = v.get "recommendations")
    (hex : v'.get "explainability" = v.get "explainability")
    (hio : isObjectNonNull (v'.get "issues") = isObjectNonNull (v.get "issues"))
    (hci : ∀ k0 ∈ requiredIssueKeys,
      checkIssue (v'.get "issues") k0 = checkIssue (v.get "issues") k0) :
    validationError v' = validationError v := by
  unfold validationError topLevelValid checkIssues
  rw [ht, hov, hsk, hfz, hrec, hex, hio,
    findSome_congr (checkIssue (v'.get "issues")) (checkIssue (v.get "issues"))
      requiredIssueKeys hci]

/-- Replacing an `areas` value never changes the validation outcome: no
check reads `areas`. -/
theorem validationError_setIssueArea (v w : JsonVal) (k : String) :
    validationError (setIssueArea v k w) = validationError v := by
  cases v with
  | null => rfl
  | bool b => rfl
  | num m e => rfl
  | str s => rfl
  | arr xs => rfl
  | obj fields =>
    cases hi : JsonVal.objGet fields "issues" with
    | none => simp [setIssueArea, hi]
    | some iv =>
      cases iv with
      | null => simp [setIssueArea, hi]
      | bool b => simp [setIssueArea, hi]
      | num m e => simp [setIssueArea, hi]
      | str s => simp [setIssueArea, hi]
      | arr xs => simp [setIssueArea, hi]
      | obj issueFields =>
        cases he : JsonVal.objGet issueFields k with
        | none => simp [setIssueArea, hi, he]
        | some ev =>
          cases ev with
          | null => simp [setIssueArea, hi, he]
          | bool b => simp [setIssueArea, hi, he]
          | num m e => simp [setIssueArea, hi, he]
          | str s => simp [setIssueArea, hi, he]
          | arr xs => simp [setIssueArea, hi, he]
          | obj entryFields =>
            have hred : setIssueArea (.obj fields) k w =
                .obj (JsonVal.objSet fields "issues"
                  (.obj (JsonVal.objSet issueFields k
                    (.obj (JsonVal.objSet entryFields "areas" w))))) := by
              simp [setIssueArea, hi, he]
            rw [hred]
            apply validationError_congr
            · rfl
            · exact objGet_objSet_ne fields "issues" "overallScore" _ (by decide)
            · exact objGet_objSet_ne fields "issues" "skinType" _ (by decide)
            · exact objGet_objSet_ne fields "issues" "fitzpatrickScale" _ (by decide)
            · exact objGet_objSet_ne fields "issues" "recommendations" _ (by decide)
            · exact objGet_objSet_ne fields "issues" "explainability" _ (by decide)
            · show isObjectNonNull (JsonVal.objGet (JsonVal.objSet fields "issues" _) "issues")
                = isObjectNonNull (JsonVal.objGet fields "issues")
              rw [objGet_objSet_self, hi]
              rfl
            · intro k0 _
              have hIssGet : JsonVal.objGet (JsonVal.objSet fields "issues"
                  (.obj (JsonVal.objSet issueFields k
                    (.obj (JsonVal.objSet entryFields "areas" w))))) "issues" =
                  some (.obj (JsonVal.objSet issueFields k
                    (.obj (JsonVal.objSet entryFields "areas" w)))) :=
                objGet_objSet_self fields "issues" _
              show checkIssue (JsonVal.objGet (JsonVal.objSet fields "issues" _) "issues") k0
                = checkIssue (JsonVal.objGet fields "issues") k0
              rw [hIssGet, hi]
              by_cases hkk : k0 = k
              · subst hkk
                apply checkIssue_congr
                · show optTruthy (JsonVal.objGet (JsonVal.objSet issueFields k0 _) k0)
                    = optTruthy (JsonVal.objGet issueFields k0)
                  rw [objGet_objSet_self, he]
                  rfl
                all_goals
                  show optGet (JsonVal.objGet (JsonVal.objSet issueFields k0 _) k0) _
                    = optGet (JsonVal.objGet issueFields k0) _
                all_goals rw [objGet_objSet_self, he]
                · show JsonVal.objGet (JsonVal.objSet entryFields "areas" w) "score"
                    = JsonVal.objGet entryFields "score"
                  exact objGet_objSet_ne entryFields "areas" "score" w (by decide)
                · exact objGet_objSet_ne entryFields "areas" "description" w (by decide)
                · exact objGet_objSet_ne entryFields "areas" "severity" w (by decide)
              · apply checkIssue_eq_of_entry_eq
                show JsonVal.objGet (JsonVal.objSet issueFields k _) k0
                  = JsonVal.objGet issueFields k0
                exact objGet_objSet_ne issueFields k k0 _ hkk

/-- C10. The optional `areas` field of an issue entry is never
type-checked: replacing it by a value of any type leaves the validation
outcome unchanged, and when validation passes, the response carrying the
replaced `areas` is returned verbatim inside the result. -/
theorem c10_areas_untyped (v w : JsonVal) (k : String) :
    validationError (setIssueArea v k w) = validationError v ∧
    (∀ (text : String) (d : List Char),
      cleanResponseText text.data = .ok d →
      jsonParse d = some (setIssueArea v k w) →
      validationError v = none →
      analyzeSkinImage true text = .requested (.ok (setIssueArea v k w))) := by
  have hinv := validationError_setIssueArea v w k
  refine ⟨hinv, ?_⟩
  intro text d hc hp hv
  unfold analyzeSkinImage processResponse
  rw [hc]
  simp [hp, hinv, hv]

/-- C10, witness: the sample with `acne.areas` replaced by the number `5`
still passes validation and is returned with that number in place. -/
theorem c10_areas_untyped_witness :
    cleanResponseText sampleAreasNumText.data = .ok sampleAreasNumText.data ∧
    jsonParse sampleAreasNumText.data = some (setIssueArea sampleVal "acne" (.num 5 0)) ∧
    validationError sampleVal = none ∧
    validationError (setIssueArea sampleVal "acne" (.num 5 0)) = validationError sampleVal ∧
    analyzeSkinImage true sampleAreasNumText =
      .requested (.ok (setIssueArea sampleVal "acne" (.num 5 0))) :=
  ⟨rfl, rfl, rfl, (c10_areas_untyped sampleVal (.num 5 0) "acne").1,
   (c10_areas_untyped sampleVal (.num 5 0) "acne").2 sampleAreasNumText
     sampleAreasNumText.data rfl rfl rfl⟩

/-- A list whose two one-sided trims are identities is fixed by `trimList`. -/
theorem trimList_eq_self_of_parts (l : List Char) (h1 : l.dropWhile wsChar = l)
    (h2 : l.reverse.dropWhile wsChar = l.reverse) : trimList l = l := by
  unfold trimList
  rw [h1, h2, List.reverse_reverse]

/-- Dropping whitespace from an append whose nonempty left part starts
non-whitespace changes nothing. -/
theorem dropWhile_append_left (l1 l2 : List Char) (h : l1.dropWhile wsChar = l1)
    (hne : l1.isEmpty = false) : (l1 ++ l2).dropWhile wsChar = l1 ++ l2 := by
  rw [List.dropWhile_append, h, hne]
  simp

/-- C1, counterexample. The code only strips a leading fence spelled
exactly with the `json` annotation: a bare leading triple-backtick fence is
left in place (only the trailing fence is removed), so the same JSON object
wrapped in an unannotated fence produces a JSON-parse failure instead of
the unfenced result. -/
theorem c1_fence_counterexample :
    analyzeSkinImage true "\x7b\x7d" = .requested (.error .invalidTopLevel) ∧
    analyzeSkinImage true "```\n\x7b\x7d\n```" =
      .requested (.error (.malformedJson "```\n\x7b\x7d")) ∧
    analyzeSkinImage true "```\n\x7b\x7d\n```" ≠ analyzeSkinImage true "\x7b\x7d" := by
  refine ⟨rfl, rfl, ?_⟩
  intro h
  rw [show analyzeSkinImage true "```\n\x7b\x7d\n```" =
        .requested (.error (.malformedJson "```\n\x7b\x7d")) from rfl,
      show analyzeSkinImage true "\x7b\x7d" =
        .requested (.error .invalidTopLevel) from rfl] at h
  injection h with h1
  injection h1 with h2
  exact GeminiError.noConfusion h2

/-- C1, amended. For every trimmed nonempty response text that does not
itself begin with the annotated opening fence or end with a closing fence,
wrapping it in a `json`-annotated markdown fence changes nothing: the
pipeline trims, strips exactly one leading `json`-annotated fence and one
trailing fence, trims again, and then proceeds identically. (A bare,
unannotated leading fence is not stripped — the counterexample.) -/
theorem c1_fence_equiv (t : String)
    (htrim : trimList t.data = t.data) (hne : t.data ≠ [])
    (hpre : fenceOpen.isPrefixOf t.data = false)
    (hsuf : fenceClose.isSuffixOf t.data = false) :
    analyzeSkinImage true ("```json\n" ++ t ++ "\n```") = analyzeSkinImage true t := by
  have hie : t.data.isEmpty = false := by
    cases hd : t.data with
    | nil => exact absurd hd hne
    | cons a l => rfl
  have hstripR : stripFences t.data = t.data := by
    simp [stripFences, hpre, hsuf]
  have hright : cleanResponseText t.data = .ok t.data := by
    simp [cleanResponseText, hie, hstripR, htrim]
  set Y : List Char := '\n' :: (t.data ++ ['\n']) with hY
  set X : List Char := Y ++ fenceClose with hX
  have hdata : ("```json\n" ++ t ++ "\n```").data = fenceOpen ++ X := by
    rw [hX, hY]
    simp [fenceOpen, fenceClose, String.data_append, List.append_assoc]
  have htrimW : trimList (fenceOpen ++ X) = fenceOpen ++ X := by
    apply trimList_eq_self_of_parts
    · exact dropWhile_append_left fenceOpen X (by decide) (by decide)
    · rw [List.reverse_append, hX, List.reverse_append, List.append_assoc]
      exact dropWhile_append_left fenceClose.reverse (Y.reverse ++ fenceOpen.reverse)
        (by decide) (by decide)
  have hWne : (fenceOpen ++ X).isEmpty = false := rfl
  have hpreW : fenceOpen.isPrefixOf (fenceOpen ++ X) = true := by
    rw [List.isPrefixOf_iff_prefix]
    exact List.prefix_append fenceOpen X
  have hdropW : (fenceOpen ++ X).drop fenceOpen.length = X := List.drop_left fenceOpen X
  have hsufX : fenceClose.isSuffixOf X = true := by
    rw [hX, List.isSuffixOf_iff_suffix]
    exact List.suffix_append Y fenceClose
  have htakeX : X.take (X.length - fenceClose.length) = Y := by
    rw [hX, List.length_append, Nat.add_sub_cancel]
    exact List.take_left Y fenceClose
  have hstripW : stripFences (fenceOpen ++ X) = Y := by
    simp only [stripFences, hpreW, if_true, hdropW, hsufX, htakeX]
  have htrimY : trimList Y = t.data := by
    rw [hY]
    exact trimList_newline_pad htrim hne
  have hleft : cleanResponseText ("```json\n" ++ t ++ "\n```").data = .ok t.data := by
    rw [hdata]
    simp [cleanResponseText, htrimW, hWne, hstripW, htrimY, hie]
  unfold analyzeSkinImage processResponse
  rw [hleft, hright]

/-- C1, witness: the amended statement at a concrete JSON object. -/
theorem c1_fence_equiv_witness :
    (trimList ("\x7b\"skinType\":\"oily\"\x7d" : String).data
        = ("\x7b\"skinType\":\"oily\"\x7d" : String).data ∧
      ("\x7b\"skinType\":\"oily\"\x7d" : String).data ≠ [] ∧
      fenceOpen.isPrefixOf ("\x7b\"skinType\":\"oily\"\x7d" : String).data = false ∧
      fenceClose.isSuffixOf ("\x7b\"skinType\":\"oily\"\x7d" : String).data = false) ∧
    analyzeSkinImage true ("```json\n" ++ "\x7b\"skinType\":\"oily\"\x7d" ++ "\n```")
      = analyzeSkinImage true "\x7b\"skinType\":\"oily\"\x7d" :=
  ⟨⟨by decide, by decide, by decide, by decide⟩,
   c1_fence_equiv "\x7b\"skinType\":\"oily\"\x7d" (by decide) (by decide) (by decide)
     (by decide)⟩

end FaceHeal
